import Mathlib

/-!
Verification of the SiK Si1000 UART bootloader
(`Firmware/bootloader/bootloader.c`).

The command loop of `bootloader()` is embedded as a step function on an
explicit machine state.  Serial input (`cin`) is a list of bytes consumed
from the front; serial output (`cout`), flash programming calls
(`flash_write_byte`), flash erases and the software-reset request are
recorded as effects of one loop iteration.  16-bit quantities (`address`)
are `Nat` reduced modulo 2^16 at every point where the C `uint16_t`
arithmetic wraps, and 8-bit quantities are reduced modulo 2^8 where the C
code truncates to `uint8_t`.
-/

/-- Modelled from the spec: the wire-protocol constants live in
`bootloader.h`, which is not part of the sources here.  The spec only
requires implementer-assigned opcode constants and an `END_OF_COMMAND`
sentinel distinct from every opcode; the concrete byte values below
realise that. -/
def PROTO_OK : Nat := 0x10

def PROTO_INSYNC : Nat := 0x12

def PROTO_EOC : Nat := 0x20

def PROTO_GET_SYNC : Nat := 0x21

def PROTO_GET_DEVICE : Nat := 0x22

def PROTO_CHIP_ERASE : Nat := 0x23

def PROTO_LOAD_ADDRESS : Nat := 0x24

def PROTO_PROG_FLASH : Nat := 0x25

def PROTO_READ_FLASH : Nat := 0x26

def PROTO_PROG_MULTI : Nat := 0x27

def PROTO_READ_MULTI : Nat := 0x28

def PROTO_PARAM_ERASE : Nat := 0x29

def PROTO_REBOOT : Nat := 0x30

/-- Modelled from the spec: `sizeof(buf)` where `buf` has
`PROTO_PROG_MULTI_MAX` elements; the constant is defined in
`bootloader.h` (not in the sources), the spec calls it the
TransferBuffer capacity, "a fixed small constant". -/
def PROTO_PROG_MULTI_MAX : Nat := 32

/-- Board identity and frequency bytes (`BOARD_ID`, `board_frequency`),
read-only inputs of the command loop. -/
structure BoardInfo where
  boardId : Nat
  boardFrequency : Nat

/-- Mutable state of one command-loop iteration: the 16-bit `address`
cursor, the flash contents as seen through `flash_read_byte`, and the
global staging array `uint8_t buf[PROTO_PROG_MULTI_MAX]` (modelled as a
function from index to byte). -/
structure LoopState where
  address : Nat
  flash : Nat → Nat
  buf : Nat → Nat

/-- Observable result of one command-loop iteration: the state afterwards,
the bytes passed to `cout` in order, the `flash_write_byte` calls in order
(address, byte), whether `flash_erase_app` / `flash_erase_scratch` ran,
whether the software-reset bit was set (`RSTSRC |= 1<<4`), and the serial
input not consumed by this iteration. -/
structure StepResult where
  state : LoopState
  output : List Nat
  writes : List (Nat × Nat)
  eraseApp : Bool
  eraseScratch : Bool
  reboot : Bool
  rest : List Nat

/-- The `cmd_bad` exit: the iteration ends silently, with no output and no
acknowledgement, keeping whatever state mutations already happened. -/
def cmdBad (s : LoopState) (rest : List Nat) : StepResult :=
  ⟨s, [], [], false, false, false, rest⟩

/-- The staging loop of `PROG_MULTI`:
`for (i = 0; i < count; i++) buf[i] = cin();` starting at index `i` with
`k` iterations left.  Returns the updated buffer and the unconsumed input,
or `none` if the input list runs out (the C code would block forever). -/
def stageBytes : (Nat → Nat) → Nat → Nat → List Nat → Option ((Nat → Nat) × List Nat)
  | buf, _, 0, input => some (buf, input)
  | buf, i, k + 1, input =>
    match input with
    | [] => none
    | b :: input2 => stageBytes (fun j => if j = i then b % 256 else buf j) (i + 1) k input2

/-- The commit loop of `PROG_MULTI`:
`for (i = 0; i < count; i++) flash_write_byte(address++, buf[i]);`
starting at buffer index `i` with `k` iterations left.  Returns the flash
afterwards, the address afterwards, and the write calls in order. -/
def progBytes : (Nat → Nat) → Nat → (Nat → Nat) → Nat → Nat →
    (Nat → Nat) × Nat × List (Nat × Nat)
  | flash, addr, _, _, 0 => (flash, addr, [])
  | flash, addr, buf, i, k + 1 =>
    let b := buf i
    let r := progBytes (fun a => if a = addr then b else flash a) ((addr + 1) % 65536) buf (i + 1) k
    (r.1, r.2.1, (addr, b) :: r.2.2)

/-- The read loop of `READ_MULTI`:
`for (i = 0; i < count; i++) { c = flash_read_byte(address++); cout(c); }`
with `k` iterations left.  Returns the bytes sent and the address
afterwards. -/
def readBytes : (Nat → Nat) → Nat → Nat → List Nat × Nat
  | _, addr, 0 => ([], addr)
  | flash, addr, k + 1 =>
    let r := readBytes flash ((addr + 1) % 65536) k
    (flash addr :: r.1, r.2)

/-- `get_uint16()`: two bytes little-endian, `val = cin(); val |= cin() << 8`. -/
def get_uint16 (lo hi : Nat) : Nat :=
  (lo % 256) ||| ((hi % 256) <<< 8)

/-- `sync_response()`: `cout(PROTO_INSYNC); cout(PROTO_OK);`. -/
def sync_response : List Nat :=
  [PROTO_INSYNC, PROTO_OK]

/-- One iteration of the main loop of `bootloader()` (lines 116–204 of
`bootloader.c`): read an opcode byte with `cin`, run the common
end-of-command pre-check for the grouped opcodes, dispatch, and end at
`cmd_ok` (acknowledge) or `cmd_bad` (silent).  `none` means the iteration
blocks forever waiting for input that never arrives. -/
def step (bi : BoardInfo) (s : LoopState) (input : List Nat) : Option StepResult :=
  match input with
  | [] => none
  | c0 :: in1 =>
    let c := c0 % 256
    if c = PROTO_GET_SYNC ∨ c = PROTO_GET_DEVICE ∨ c = PROTO_CHIP_ERASE ∨
        c = PROTO_PARAM_ERASE ∨ c = PROTO_READ_FLASH then
      match in1 with
      | [] => none
      | t :: in2 =>
        if t % 256 ≠ PROTO_EOC then some (cmdBad s in2)
        else if c = PROTO_GET_SYNC then
          some ⟨s, sync_response, [], false, false, false, in2⟩
        else if c = PROTO_GET_DEVICE then
          some ⟨s, [bi.boardId, bi.boardFrequency] ++ sync_response, [], false, false, false, in2⟩
        else if c = PROTO_CHIP_ERASE then
          some ⟨s, sync_response, [], true, false, false, in2⟩
        else if c = PROTO_PARAM_ERASE then
          some ⟨s, sync_response, [], false, true, false, in2⟩
        else
          some ⟨{ s with address := (s.address + 1) % 65536 },
            [s.flash s.address] ++ sync_response, [], false, false, false, in2⟩
    else if c = PROTO_LOAD_ADDRESS then
      match in1 with
      | lo :: hi :: t :: in2 =>
        let s2 := { s with address := get_uint16 lo hi }
        if t % 256 ≠ PROTO_EOC then some (cmdBad s2 in2)
        else some ⟨s2, sync_response, [], false, false, false, in2⟩
      | _ => none
    else if c = PROTO_PROG_FLASH then
      match in1 with
      | d :: t :: in2 =>
        if t % 256 ≠ PROTO_EOC then some (cmdBad s in2)
        else
          some ⟨⟨(s.address + 1) % 65536,
              fun a => if a = s.address then d % 256 else s.flash a, s.buf⟩,
            sync_response, [(s.address, d % 256)], false, false, false, in2⟩
      | _ => none
    else if c = PROTO_PROG_MULTI then
      match in1 with
      | [] => none
      | cnt :: in2 =>
        let count := cnt % 256
        if count > PROTO_PROG_MULTI_MAX then some (cmdBad s in2)
        else
          match stageBytes s.buf 0 count in2 with
          | none => none
          | some (buf2, in3) =>
            match in3 with
            | [] => none
            | t :: in4 =>
              if t % 256 ≠ PROTO_EOC then some (cmdBad { s with buf := buf2 } in4)
              else
                let r := progBytes s.flash s.address buf2 0 count
                some ⟨⟨r.2.1, r.1, buf2⟩, sync_response, r.2.2, false, false, false, in4⟩
    else if c = PROTO_READ_MULTI then
      match in1 with
      | cnt :: t :: in2 =>
        if t % 256 ≠ PROTO_EOC then some (cmdBad s in2)
        else
          let r := readBytes s.flash s.address (cnt % 256)
          some ⟨{ s with address := r.2 }, r.1 ++ sync_response, [], false, false, false, in2⟩
      | _ => none
    else if c = PROTO_REBOOT then
      some ⟨s, [], [], false, false, true, in1⟩
    else
      some (cmdBad s in1)

/-- Inputs of the Boot Gate at lines 98–109: the reset-cause register
`RSTSRC`, the result of `flash_app_valid()`, the sampled
`BUTTON_BOOTLOAD` level and the `BUTTON_ACTIVE` constant. -/
structure BootEnv where
  rstsrc : Nat
  appValid : Bool
  button : Nat
  buttonActive : Nat

/-- The two possible outcomes of the Boot Gate. -/
inductive BootAction where
  | runApp
  | commandLoop
deriving DecidableEq

/-- The Boot Gate condition of `bootloader()`:
`if (!(RSTSRC & (1 << 6)) && flash_app_valid() && (BUTTON_BOOTLOAD != BUTTON_ACTIVE))`
jump to the application, otherwise fall through into the command loop. -/
def bootGate (e : BootEnv) : BootAction :=
  if (e.rstsrc &&& (1 <<< 6) == 0) && e.appValid && (e.button != e.buttonActive) then
    BootAction.runApp
  else
    BootAction.commandLoop

/-- A concrete board (arbitrary identity and frequency bytes), used to
evaluate the theorems below on closed inputs. -/
def bi0 : BoardInfo :=
  ⟨0x43, 0x5A⟩

/-- A concrete loop state: cursor 0, flash all-7, staging buffer all-0. -/
def s0 : LoopState :=
  ⟨0, fun _ => 7, fun _ => 0⟩

/-- A concrete loop state whose cursor sits at the top of the 16-bit
address space, to exercise wraparound on closed inputs. -/
def s1 : LoopState :=
  ⟨65535, fun _ => 7, fun _ => 0⟩

/-! ## Helper lemmas about the three inner loops -/

/-- Staging `data.length` bytes from input `data ++ rest` consumes exactly
`data`, writes `data[t] % 256` at buffer index `i + t`, and leaves every
other buffer cell alone. -/
theorem stageBytes_append (data : List Nat) : ∀ (buf : Nat → Nat) (i : Nat) (rest : List Nat),
    ∃ buf2, stageBytes buf i data.length (data ++ rest) = some (buf2, rest) ∧
      (∀ j, j < i → buf2 j = buf j) ∧
      (∀ j, i + data.length ≤ j → buf2 j = buf j) ∧
      (∀ t, t < data.length → buf2 (i + t) = data.getD t 0 % 256) := by
  induction data with
  | nil =>
    intro buf i rest
    exact ⟨buf, rfl, fun j _ => rfl, fun j _ => rfl, fun t ht => absurd ht (Nat.not_lt_zero t)⟩
  | cons b bs ih =>
    intro buf i rest
    obtain ⟨buf2, heq, hlo, hhi, hmid⟩ := ih (fun j => if j = i then b % 256 else buf j) (i + 1) rest
    refine ⟨buf2, ?_, ?_, ?_, ?_⟩
    · simpa [stageBytes] using heq
    · intro j hj
      rw [hlo j (by omega)]
      simp [show j ≠ i by omega]
    · intro j hj
      simp only [List.length_cons] at hj
      rw [hhi j (by omega)]
      simp [show j ≠ i by omega]
    · intro t ht
      match t with
      | 0 =>
        have := hlo i (by omega)
        simpa using this
      | t2 + 1 =>
        have := hmid t2 (by simpa using ht)
        rw [show i + (t2 + 1) = (i + 1) + t2 by omega]
        simpa using this

/-- Whatever input it gets, the staging loop starting at index `i` with `k`
iterations never touches a buffer cell outside `[i, i + k)`. -/
theorem stageBytes_frame : ∀ (k : Nat) (buf : Nat → Nat) (i : Nat) (input : List Nat)
    (buf2 : Nat → Nat) (rest : List Nat),
    stageBytes buf i k input = some (buf2, rest) →
    ∀ j, (j < i ∨ i + k ≤ j) → buf2 j = buf j := by
  intro k
  induction k with
  | zero =>
    intro buf i input buf2 rest h j _
    simp only [stageBytes, Option.some.injEq, Prod.mk.injEq] at h
    rw [← h.1]
  | succ k ih =>
    intro buf i input buf2 rest h j hj
    match input with
    | [] => simp [stageBytes] at h
    | b :: input2 =>
      simp only [stageBytes] at h
      rw [ih _ (i + 1) input2 buf2 rest h j (by omega)]
      simp [show j ≠ i by omega]

/-- The commit loop writes `buf (i + t)` at address `(addr + t) % 2^16`
for `t = 0, …, k-1`, in order, and leaves the cursor at
`(addr + k) % 2^16`. -/
theorem progBytes_spec : ∀ (k : Nat) (flash : Nat → Nat) (addr : Nat) (buf : Nat → Nat) (i : Nat),
    addr < 65536 →
    (progBytes flash addr buf i k).2.2 =
      (List.range k).map (fun t => ((addr + t) % 65536, buf (i + t))) ∧
    (progBytes flash addr buf i k).2.1 = (addr + k) % 65536 := by
  intro k
  induction k with
  | zero =>
    intro flash addr buf i h
    exact ⟨by simp [progBytes], by simp [progBytes, Nat.mod_eq_of_lt h]⟩
  | succ k ih =>
    intro flash addr buf i h
    obtain ⟨h1, h2⟩ := ih (fun a => if a = addr then buf i else flash a)
      ((addr + 1) % 65536) buf (i + 1) (Nat.mod_lt _ (by norm_num))
    constructor
    · simp only [progBytes]
      rw [h1, List.range_succ_eq_map, List.map_cons, List.map_map]
      refine List.cons_eq_cons.mpr ⟨?_, ?_⟩
      · simp [Nat.mod_eq_of_lt h]
      · refine List.map_congr_left fun t _ => ?_
        have ha : ((addr + 1) % 65536 + t) % 65536 = (addr + (t + 1)) % 65536 := by
          rw [Nat.mod_add_mod]
          congr 1
          omega
        simp only [Function.comp]
        rw [ha, show i + 1 + t = i + (t + 1) by omega]
    · simp only [progBytes]
      rw [h2, Nat.mod_add_mod]
      congr 1
      omega

/-- The read loop sends `flash ((addr + t) % 2^16)` for `t = 0, …, k-1`,
in order, and leaves the cursor at `(addr + k) % 2^16`. -/
theorem readBytes_spec : ∀ (k : Nat) (flash : Nat → Nat) (addr : Nat), addr < 65536 →
    (readBytes flash addr k).1 = (List.range k).map (fun t => flash ((addr + t) % 65536)) ∧
    (readBytes flash addr k).2 = (addr + k) % 65536 := by
  intro k
  induction k with
  | zero =>
    intro flash addr h
    exact ⟨by simp [readBytes], by simp [readBytes, Nat.mod_eq_of_lt h]⟩
  | succ k ih =>
    intro flash addr h
    obtain ⟨h1, h2⟩ := ih flash ((addr + 1) % 65536) (Nat.mod_lt _ (by norm_num))
    constructor
    · simp only [readBytes]
      rw [h1, List.range_succ_eq_map, List.map_cons, List.map_map]
      refine List.cons_eq_cons.mpr ⟨?_, ?_⟩
      · simp [Nat.mod_eq_of_lt h]
      · refine List.map_congr_left fun t _ => ?_
        simp only [Function.comp]
        rw [Nat.mod_add_mod, show addr + 1 + t = addr + (t + 1) by omega]
    · simp only [readBytes]
      rw [h2, Nat.mod_add_mod]
      congr 1
      omega

/-- The read loop sends exactly `k` bytes, whatever the flash and cursor. -/
theorem readBytes_length : ∀ (k : Nat) (flash : Nat → Nat) (addr : Nat),
    (readBytes flash addr k).1.length = k := by
  intro k
  induction k with
  | zero => intro flash addr; rfl
  | succ k ih =>
    intro flash addr
    simp only [readBytes, List.length_cons]
    rw [ih]

/-! ## The claims -/

/-- Claim C1: a PROG_FLASH or PROG_MULTI frame with a terminator byte other
than END_OF_COMMAND, and a PROG_MULTI frame whose count byte exceeds the
TransferBuffer capacity, perform zero flash_write_byte calls and leave the
flash contents and the address cursor unchanged. -/
theorem cmd_validation_blocks_flash_writes (bi : BoardInfo) (s : LoopState)
    (d t cnt cnt2 : Nat) (data rest rest2 rest3 : List Nat)
    (ht : t % 256 ≠ PROTO_EOC) (hc : cnt % 256 ≤ PROTO_PROG_MULTI_MAX)
    (hlen : data.length = cnt % 256) (hbig : PROTO_PROG_MULTI_MAX < cnt2 % 256) :
    (∃ r, step bi s (PROTO_PROG_FLASH :: d :: t :: rest) = some r ∧
      r.writes = [] ∧ r.state.flash = s.flash ∧ r.state.address = s.address) ∧
    (∃ r, step bi s (PROTO_PROG_MULTI :: cnt :: (data ++ t :: rest2)) = some r ∧
      r.writes = [] ∧ r.state.flash = s.flash ∧ r.state.address = s.address) ∧
    (∃ r, step bi s (PROTO_PROG_MULTI :: cnt2 :: rest3) = some r ∧
      r.writes = [] ∧ r.state.flash = s.flash ∧ r.state.address = s.address) := by
  obtain ⟨buf2, heq, hlo2, hhi2, hmid⟩ := stageBytes_append data s.buf 0 (t :: rest2)
  rw [hlen] at heq
  refine ⟨⟨cmdBad s rest, ?_, rfl, rfl, rfl⟩,
    ⟨cmdBad { s with buf := buf2 } rest2, ?_, rfl, rfl, rfl⟩,
    ⟨cmdBad s rest3, ?_, rfl, rfl, rfl⟩⟩
  · simp [step, PROTO_PROG_FLASH, PROTO_GET_SYNC, PROTO_GET_DEVICE, PROTO_CHIP_ERASE,
      PROTO_PARAM_ERASE, PROTO_READ_FLASH, PROTO_LOAD_ADDRESS, ht]
  · simp only [step, PROTO_PROG_MULTI, PROTO_GET_SYNC, PROTO_GET_DEVICE, PROTO_CHIP_ERASE,
      PROTO_PARAM_ERASE, PROTO_READ_FLASH, PROTO_LOAD_ADDRESS, PROTO_PROG_FLASH]
    norm_num
    rw [if_neg (by simp only [PROTO_PROG_MULTI_MAX] at hc ⊢; omega), heq]
    simp [ht]
  · simp only [step, PROTO_PROG_MULTI, PROTO_GET_SYNC, PROTO_GET_DEVICE, PROTO_CHIP_ERASE,
      PROTO_PARAM_ERASE, PROTO_READ_FLASH, PROTO_LOAD_ADDRESS, PROTO_PROG_FLASH]
    norm_num
    intro h
    simp only [PROTO_PROG_MULTI_MAX] at h hbig
    omega

theorem cmd_validation_blocks_flash_writes_witness :
    (0 % 256 ≠ PROTO_EOC ∧ 3 % 256 ≤ PROTO_PROG_MULTI_MAX ∧
      ([1, 2, 3] : List Nat).length = 3 % 256 ∧ PROTO_PROG_MULTI_MAX < 40 % 256) ∧
    (∃ r, step bi0 s0 (PROTO_PROG_FLASH :: 7 :: 0 :: []) = some r ∧
      r.writes = [] ∧ r.state.flash = s0.flash ∧ r.state.address = s0.address) :=
  ⟨⟨by decide, by decide, by decide, by decide⟩,
    (cmd_validation_blocks_flash_writes bi0 s0 7 0 3 40 [1, 2, 3] [] [] []
      (by decide) (by decide) (by decide) (by decide)).1⟩

/-- Claim C2: a PROG_MULTI frame with count at most the TransferBuffer
capacity and a valid terminator programs exactly count bytes at sequential
addresses from the pre-command cursor, in the order received, advances the
cursor by count modulo 2^16 and acknowledges; with a bad terminator or an
oversize count the flash is untouched. -/
theorem prog_multi_commits_exactly_count_bytes (bi : BoardInfo) (s : LoopState)
    (t cnt cnt2 : Nat) (data rest rest2 rest3 : List Nat)
    (haddr : s.address < 65536) (hc : cnt % 256 ≤ PROTO_PROG_MULTI_MAX)
    (hlen : data.length = cnt % 256) (ht : t % 256 ≠ PROTO_EOC)
    (hbig : PROTO_PROG_MULTI_MAX < cnt2 % 256) :
    (∃ r, step bi s (PROTO_PROG_MULTI :: cnt :: (data ++ PROTO_EOC :: rest)) = some r ∧
      r.writes = (List.range (cnt % 256)).map
        (fun u => ((s.address + u) % 65536, data.getD u 0 % 256)) ∧
      r.state.address = (s.address + cnt % 256) % 65536 ∧
      r.output = [PROTO_INSYNC, PROTO_OK]) ∧
    (∃ r, step bi s (PROTO_PROG_MULTI :: cnt :: (data ++ t :: rest2)) = some r ∧
      r.writes = [] ∧ r.state.flash = s.flash) ∧
    (∃ r, step bi s (PROTO_PROG_MULTI :: cnt2 :: rest3) = some r ∧
      r.writes = [] ∧ r.state.flash = s.flash) := by
  obtain ⟨buf2, heq, hlo2, hhi2, hmid⟩ := stageBytes_append data s.buf 0 (PROTO_EOC :: rest)
  obtain ⟨buf3, heq3, _, _, _⟩ := stageBytes_append data s.buf 0 (t :: rest2)
  rw [hlen] at heq heq3
  obtain ⟨hw, ha2⟩ := progBytes_spec (cnt % 256) s.flash s.address buf2 0 haddr
  refine ⟨⟨⟨⟨(progBytes s.flash s.address buf2 0 (cnt % 256)).2.1,
      (progBytes s.flash s.address buf2 0 (cnt % 256)).1, buf2⟩, sync_response,
      (progBytes s.flash s.address buf2 0 (cnt % 256)).2.2, false, false, false, rest⟩,
      ?_, ?_, ?_, rfl⟩,
    ⟨cmdBad { s with buf := buf3 } rest2, ?_, rfl, rfl⟩,
    ⟨cmdBad s rest3, ?_, rfl, rfl⟩⟩
  · simp only [step, PROTO_PROG_MULTI, PROTO_GET_SYNC, PROTO_GET_DEVICE, PROTO_CHIP_ERASE,
      PROTO_PARAM_ERASE, PROTO_READ_FLASH, PROTO_LOAD_ADDRESS, PROTO_PROG_FLASH]
    norm_num
    rw [if_neg (by simp only [PROTO_PROG_MULTI_MAX] at hc ⊢; omega), heq]
    simp [PROTO_EOC]
  · rw [hw]
    refine List.map_congr_left fun u hu => ?_
    rw [List.mem_range] at hu
    rw [hmid u (by omega)]
  · exact ha2
  · simp only [step, PROTO_PROG_MULTI, PROTO_GET_SYNC, PROTO_GET_DEVICE, PROTO_CHIP_ERASE,
      PROTO_PARAM_ERASE, PROTO_READ_FLASH, PROTO_LOAD_ADDRESS, PROTO_PROG_FLASH]
    norm_num
    rw [if_neg (by simp only [PROTO_PROG_MULTI_MAX] at hc ⊢; omega), heq3]
    simp [ht]
  · simp only [step, PROTO_PROG_MULTI, PROTO_GET_SYNC, PROTO_GET_DEVICE, PROTO_CHIP_ERASE,
      PROTO_PARAM_ERASE, PROTO_READ_FLASH, PROTO_LOAD_ADDRESS, PROTO_PROG_FLASH]
    norm_num
    intro h
    simp only [PROTO_PROG_MULTI_MAX] at h hbig
    omega

theorem prog_multi_commits_exactly_count_bytes_witness :
    (s0.address < 65536 ∧ 3 % 256 ≤ PROTO_PROG_MULTI_MAX ∧
      ([1, 2, 3] : List Nat).length = 3 % 256 ∧ 0 % 256 ≠ PROTO_EOC ∧
      PROTO_PROG_MULTI_MAX < 40 % 256) ∧
    (∃ r, step bi0 s0 (PROTO_PROG_MULTI :: 3 :: ([1, 2, 3] ++ PROTO_EOC :: [])) = some r ∧
      r.writes = (List.range (3 % 256)).map
        (fun u => ((s0.address + u) % 65536, ([1, 2, 3] : List Nat).getD u 0 % 256)) ∧
      r.state.address = (s0.address + 3 % 256) % 65536 ∧
      r.output = [PROTO_INSYNC, PROTO_OK]) :=
  ⟨⟨by decide, by decide, by decide, by decide, by decide⟩,
    (prog_multi_commits_exactly_count_bytes bi0 s0 0 3 40 [1, 2, 3] [] [] []
      (by decide) (by decide) (by decide) (by decide) (by decide)).1⟩

/-- Claim C3: the Boot Gate jumps to the application exactly when the
flash-fault bit (bit 6) of the reset-cause register is clear, the
image-validity predicate holds, and the force-bootloader input is not at
its active level; otherwise the device enters the command loop. -/
theorem boot_gate_iff_conditions (e : BootEnv) :
    bootGate e = BootAction.runApp ↔
      (e.rstsrc.testBit 6 = false ∧ e.appValid = true ∧ e.button ≠ e.buttonActive) := by
  have hbit : (e.rstsrc &&& (1 <<< 6) = 0) ↔ e.rstsrc.testBit 6 = false := by
    rw [show (1 <<< 6 : Nat) = 2 ^ 6 by decide, Nat.and_two_pow]
    constructor
    · intro h
      by_contra hb
      rw [Bool.not_eq_false] at hb
      simp [hb] at h
    · intro h
      simp [h]
  unfold bootGate
  split_ifs with h
  · simp only [Bool.and_eq_true, beq_iff_eq, bne_iff_ne] at h
    simp [hbit.mp h.1.1, h.1.2, h.2]
  · simp only [Bool.and_eq_true, beq_iff_eq, bne_iff_ne, not_and] at h
    constructor
    · intro hc
      cases hc
    · intro ⟨h1, h2, h3⟩
      exact absurd h3 (by simpa using h ⟨hbit.mpr h1, h2⟩)

/-- Claim C4: a valid LOAD_ADDRESS frame with argument bytes (lo, hi) sets
the cursor to lo OR (hi shifted left 8), and a following READ_FLASH frame
echoes the flash byte at exactly that address and moves the cursor one
past it. -/
theorem load_address_then_read_flash_echo (bi : BoardInfo) (s : LoopState)
    (lo hi : Nat) (rest rest2 : List Nat) (h1 : lo < 256) (h2 : hi < 256) :
    ∃ r r2, step bi s (PROTO_LOAD_ADDRESS :: lo :: hi :: PROTO_EOC :: rest) = some r ∧
      r.state.address = lo ||| (hi <<< 8) ∧
      step bi r.state (PROTO_READ_FLASH :: PROTO_EOC :: rest2) = some r2 ∧
      r2.output = [s.flash (lo ||| (hi <<< 8)), PROTO_INSYNC, PROTO_OK] ∧
      r2.state.address = ((lo ||| (hi <<< 8)) + 1) % 65536 := by
  have ha : get_uint16 lo hi = lo ||| (hi <<< 8) := by
    simp [get_uint16, Nat.mod_eq_of_lt h1, Nat.mod_eq_of_lt h2]
  refine ⟨⟨{ s with address := lo ||| (hi <<< 8) }, sync_response, [], false, false, false, rest⟩,
    ⟨⟨((lo ||| (hi <<< 8)) + 1) % 65536, s.flash, s.buf⟩,
      [s.flash (lo ||| (hi <<< 8))] ++ sync_response, [], false, false, false, rest2⟩,
    ?_, rfl, ?_, rfl, rfl⟩
  · rw [← ha]
    simp [step, PROTO_LOAD_ADDRESS, PROTO_GET_SYNC, PROTO_GET_DEVICE, PROTO_CHIP_ERASE,
      PROTO_PARAM_ERASE, PROTO_READ_FLASH, PROTO_EOC]
  · simp [step, PROTO_READ_FLASH, PROTO_GET_SYNC, PROTO_GET_DEVICE, PROTO_CHIP_ERASE,
      PROTO_PARAM_ERASE, PROTO_EOC]

theorem load_address_then_read_flash_echo_witness :
    (0x34 < 256 ∧ 0x12 < 256) ∧
    (∃ r r2, step bi0 s0 (PROTO_LOAD_ADDRESS :: 0x34 :: 0x12 :: PROTO_EOC :: []) = some r ∧
      r.state.address = 0x34 ||| (0x12 <<< 8) ∧
      step bi0 r.state (PROTO_READ_FLASH :: PROTO_EOC :: []) = some r2 ∧
      r2.output = [s0.flash (0x34 ||| (0x12 <<< 8)), PROTO_INSYNC, PROTO_OK] ∧
      r2.state.address = ((0x34 ||| (0x12 <<< 8)) + 1) % 65536) :=
  ⟨⟨by decide, by decide⟩,
    load_address_then_read_flash_echo bi0 s0 0x34 0x12 [] [] (by decide) (by decide)⟩

/-- Claim C5: a READ_MULTI frame with count byte n and a valid terminator
sends exactly the n flash bytes at sequential addresses from the
pre-command cursor, in increasing address order, and advances the cursor
by n modulo 2^16. -/
theorem read_multi_reads_count_sequential_bytes (bi : BoardInfo) (s : LoopState)
    (cnt : Nat) (rest : List Nat) (haddr : s.address < 65536) (hcnt : cnt < 256) :
    ∃ r, step bi s (PROTO_READ_MULTI :: cnt :: PROTO_EOC :: rest) = some r ∧
      r.output = ((List.range cnt).map (fun u => s.flash ((s.address + u) % 65536))) ++
        [PROTO_INSYNC, PROTO_OK] ∧
      r.state.address = (s.address + cnt) % 65536 := by
  obtain ⟨hr1, hr2⟩ := readBytes_spec cnt s.flash s.address haddr
  refine ⟨⟨{ s with address := (readBytes s.flash s.address (cnt % 256)).2 },
    (readBytes s.flash s.address (cnt % 256)).1 ++ sync_response,
    [], false, false, false, rest⟩, ?_, ?_, ?_⟩
  · simp [step, PROTO_READ_MULTI, PROTO_GET_SYNC, PROTO_GET_DEVICE, PROTO_CHIP_ERASE,
      PROTO_PARAM_ERASE, PROTO_READ_FLASH, PROTO_LOAD_ADDRESS, PROTO_PROG_FLASH,
      PROTO_PROG_MULTI, PROTO_EOC]
  · rw [Nat.mod_eq_of_lt hcnt, hr1]
    rfl
  · rw [Nat.mod_eq_of_lt hcnt, hr2]

theorem read_multi_reads_count_sequential_bytes_witness :
    (s1.address < 65536 ∧ 4 < 256) ∧
    (∃ r, step bi0 s1 (PROTO_READ_MULTI :: 4 :: PROTO_EOC :: []) = some r ∧
      r.output = ((List.range 4).map (fun u => s1.flash ((s1.address + u) % 65536))) ++
        [PROTO_INSYNC, PROTO_OK] ∧
      r.state.address = (s1.address + 4) % 65536) :=
  ⟨⟨by decide, by decide⟩,
    read_multi_reads_count_sequential_bytes bi0 s1 4 [] (by decide) (by decide)⟩

/-- Claim C6: every successfully completed GET_SYNC, CHIP_ERASE,
PARAM_ERASE, LOAD_ADDRESS or PROG_FLASH command emits exactly the two
bytes IN_SYNC then OK and nothing else; GET_DEVICE, READ_FLASH and
READ_MULTI emit the two acknowledgement bytes after their handler-specific
response bytes. -/
theorem ack_follows_successful_commands (bi : BoardInfo) (s : LoopState)
    (lo hi d cnt : Nat) (rest : List Nat) :
    (∃ r, step bi s (PROTO_GET_SYNC :: PROTO_EOC :: rest) = some r ∧
      r.output = [PROTO_INSYNC, PROTO_OK]) ∧
    (∃ r, step bi s (PROTO_CHIP_ERASE :: PROTO_EOC :: rest) = some r ∧
      r.output = [PROTO_INSYNC, PROTO_OK]) ∧
    (∃ r, step bi s (PROTO_PARAM_ERASE :: PROTO_EOC :: rest) = some r ∧
      r.output = [PROTO_INSYNC, PROTO_OK]) ∧
    (∃ r, step bi s (PROTO_LOAD_ADDRESS :: lo :: hi :: PROTO_EOC :: rest) = some r ∧
      r.output = [PROTO_INSYNC, PROTO_OK]) ∧
    (∃ r, step bi s (PROTO_PROG_FLASH :: d :: PROTO_EOC :: rest) = some r ∧
      r.output = [PROTO_INSYNC, PROTO_OK]) ∧
    (∃ r, step bi s (PROTO_GET_DEVICE :: PROTO_EOC :: rest) = some r ∧
      r.output = [bi.boardId, bi.boardFrequency, PROTO_INSYNC, PROTO_OK]) ∧
    (∃ r, step bi s (PROTO_READ_FLASH :: PROTO_EOC :: rest) = some r ∧
      r.output = [s.flash s.address, PROTO_INSYNC, PROTO_OK]) ∧
    (∃ r data, step bi s (PROTO_READ_MULTI :: cnt :: PROTO_EOC :: rest) = some r ∧
      data.length = cnt % 256 ∧ r.output = data ++ [PROTO_INSYNC, PROTO_OK]) := by
  refine ⟨⟨⟨s, sync_response, [], false, false, false, rest⟩, ?_, rfl⟩,
    ⟨⟨s, sync_response, [], true, false, false, rest⟩, ?_, rfl⟩,
    ⟨⟨s, sync_response, [], false, true, false, rest⟩, ?_, rfl⟩,
    ⟨⟨{ s with address := get_uint16 lo hi }, sync_response, [], false, false, false, rest⟩,
      ?_, rfl⟩,
    ⟨⟨⟨(s.address + 1) % 65536, fun a => if a = s.address then d % 256 else s.flash a, s.buf⟩,
      sync_response, [(s.address, d % 256)], false, false, false, rest⟩, ?_, rfl⟩,
    ⟨⟨s, [bi.boardId, bi.boardFrequency] ++ sync_response, [], false, false, false, rest⟩,
      ?_, rfl⟩,
    ⟨⟨{ s with address := (s.address + 1) % 65536 },
      [s.flash s.address] ++ sync_response, [], false, false, false, rest⟩, ?_, rfl⟩,
    ⟨⟨{ s with address := (readBytes s.flash s.address (cnt % 256)).2 },
      (readBytes s.flash s.address (cnt % 256)).1 ++ sync_response,
      [], false, false, false, rest⟩, (readBytes s.flash s.address (cnt % 256)).1,
      ?_, readBytes_length _ _ _, rfl⟩⟩ <;>
  simp [step, sync_response, PROTO_GET_SYNC, PROTO_GET_DEVICE, PROTO_CHIP_ERASE,
    PROTO_PARAM_ERASE, PROTO_READ_FLASH, PROTO_LOAD_ADDRESS, PROTO_PROG_FLASH,
    PROTO_PROG_MULTI, PROTO_READ_MULTI, PROTO_EOC]

/-- Claim C7: an opcode byte that is none of the ten defined opcodes makes
the iteration emit no bytes at all and leave the address cursor (and the
flash) unchanged. -/
theorem unknown_opcode_silent_cursor_unchanged (bi : BoardInfo) (s : LoopState)
    (c0 : Nat) (rest : List Nat)
    (h : c0 % 256 ∉ [PROTO_GET_SYNC, PROTO_GET_DEVICE, PROTO_CHIP_ERASE, PROTO_PARAM_ERASE,
      PROTO_LOAD_ADDRESS, PROTO_PROG_FLASH, PROTO_READ_FLASH, PROTO_PROG_MULTI,
      PROTO_READ_MULTI, PROTO_REBOOT]) :
    ∃ r, step bi s (c0 :: rest) = some r ∧ r.output = [] ∧ r.writes = [] ∧
      r.state.address = s.address ∧ r.state.flash = s.flash := by
  simp only [List.mem_cons, List.not_mem_nil, or_false, not_or] at h
  obtain ⟨h1, h2, h3, h4, h5, h6, h7, h8, h9, h10⟩ := h
  refine ⟨cmdBad s rest, ?_, rfl, rfl, rfl, rfl⟩
  simp [step, if_neg h1, if_neg h2, if_neg h3, if_neg h4, if_neg h5, if_neg h6, if_neg h7,
    if_neg h8, if_neg h9, if_neg h10]
  tauto

theorem unknown_opcode_silent_cursor_unchanged_witness :
    (0xFE % 256 ∉ [PROTO_GET_SYNC, PROTO_GET_DEVICE, PROTO_CHIP_ERASE, PROTO_PARAM_ERASE,
      PROTO_LOAD_ADDRESS, PROTO_PROG_FLASH, PROTO_READ_FLASH, PROTO_PROG_MULTI,
      PROTO_READ_MULTI, PROTO_REBOOT]) ∧
    (∃ r, step bi0 s0 (0xFE :: [1, 2]) = some r ∧ r.output = [] ∧ r.writes = [] ∧
      r.state.address = s0.address ∧ r.state.flash = s0.flash) :=
  ⟨by decide, unknown_opcode_silent_cursor_unchanged bi0 s0 0xFE [1, 2] (by decide)⟩

/-- Claim C8: cursor auto-increments wrap modulo 2^16 with no fault, at
all four increment sites: PROG_FLASH and READ_FLASH advance the cursor to
(address + 1) mod 2^16, PROG_MULTI and READ_MULTI to (address + count)
mod 2^16. -/
theorem address_cursor_wraps_mod_65536 (bi : BoardInfo) (s : LoopState)
    (d cnt cnt2 : Nat) (data rest rest2 rest3 rest4 : List Nat)
    (haddr : s.address < 65536) (hc : cnt % 256 ≤ PROTO_PROG_MULTI_MAX)
    (hlen : data.length = cnt % 256) :
    (∃ r, step bi s (PROTO_PROG_FLASH :: d :: PROTO_EOC :: rest) = some r ∧
      r.state.address = (s.address + 1) % 65536) ∧
    (∃ r, step bi s (PROTO_READ_FLASH :: PROTO_EOC :: rest2) = some r ∧
      r.state.address = (s.address + 1) % 65536) ∧
    (∃ r, step bi s (PROTO_PROG_MULTI :: cnt :: (data ++ PROTO_EOC :: rest3)) = some r ∧
      r.state.address = (s.address + cnt % 256) % 65536) ∧
    (∃ r, step bi s (PROTO_READ_MULTI :: cnt2 :: PROTO_EOC :: rest4) = some r ∧
      r.state.address = (s.address + cnt2 % 256) % 65536) := by
  obtain ⟨buf2, heq, hlo2, hhi2, hmid⟩ := stageBytes_append data s.buf 0 (PROTO_EOC :: rest3)
  rw [hlen] at heq
  obtain ⟨hw, ha2⟩ := progBytes_spec (cnt % 256) s.flash s.address buf2 0 haddr
  obtain ⟨hr1, hr2⟩ := readBytes_spec (cnt2 % 256) s.flash s.address haddr
  refine ⟨⟨⟨⟨(s.address + 1) % 65536,
      fun a => if a = s.address then d % 256 else s.flash a, s.buf⟩,
      sync_response, [(s.address, d % 256)], false, false, false, rest⟩, ?_, rfl⟩,
    ⟨⟨{ s with address := (s.address + 1) % 65536 },
      [s.flash s.address] ++ sync_response, [], false, false, false, rest2⟩, ?_, rfl⟩,
    ⟨⟨⟨(progBytes s.flash s.address buf2 0 (cnt % 256)).2.1,
      (progBytes s.flash s.address buf2 0 (cnt % 256)).1, buf2⟩, sync_response,
      (progBytes s.flash s.address buf2 0 (cnt % 256)).2.2, false, false, false, rest3⟩,
      ?_, ha2⟩,
    ⟨⟨{ s with address := (readBytes s.flash s.address (cnt2 % 256)).2 },
      (readBytes s.flash s.address (cnt2 % 256)).1 ++ sync_response,
      [], false, false, false, rest4⟩, ?_, hr2⟩⟩
  · simp [step, PROTO_PROG_FLASH, PROTO_GET_SYNC, PROTO_GET_DEVICE, PROTO_CHIP_ERASE,
      PROTO_PARAM_ERASE, PROTO_READ_FLASH, PROTO_LOAD_ADDRESS, PROTO_EOC]
  · simp [step, PROTO_READ_FLASH, PROTO_GET_SYNC, PROTO_GET_DEVICE, PROTO_CHIP_ERASE,
      PROTO_PARAM_ERASE, PROTO_EOC]
  · simp only [step, PROTO_PROG_MULTI, PROTO_GET_SYNC, PROTO_GET_DEVICE, PROTO_CHIP_ERASE,
      PROTO_PARAM_ERASE, PROTO_READ_FLASH, PROTO_LOAD_ADDRESS, PROTO_PROG_FLASH]
    norm_num
    rw [if_neg (by simp only [PROTO_PROG_MULTI_MAX] at hc ⊢; omega), heq]
    simp [PROTO_EOC]
  · simp [step, PROTO_READ_MULTI, PROTO_GET_SYNC, PROTO_GET_DEVICE, PROTO_CHIP_ERASE,
      PROTO_PARAM_ERASE, PROTO_READ_FLASH, PROTO_LOAD_ADDRESS, PROTO_PROG_FLASH,
      PROTO_PROG_MULTI, PROTO_EOC]

theorem address_cursor_wraps_mod_65536_witness :
    (s1.address < 65536 ∧ 3 % 256 ≤ PROTO_PROG_MULTI_MAX ∧
      ([1, 2, 3] : List Nat).length = 3 % 256) ∧
    (∃ r, step bi0 s1 (PROTO_PROG_MULTI :: 3 :: ([1, 2, 3] ++ PROTO_EOC :: [])) = some r ∧
      r.state.address = (s1.address + 3 % 256) % 65536) :=
  ⟨⟨by decide, by decide, by decide⟩,
    (address_cursor_wraps_mod_65536 bi0 s1 9 3 5 [1, 2, 3] [] [] [] []
      (by decide) (by decide) (by decide)).2.2.1⟩

/-- Claim C9: a LOAD_ADDRESS frame whose terminator differs from
END_OF_COMMAND still sets the cursor to the decoded little-endian value
before the command is silently aborted: the cursor update is not rolled
back on a framing error. -/
theorem load_address_bad_terminator_still_sets_cursor (bi : BoardInfo) (s : LoopState)
    (lo hi t : Nat) (rest : List Nat)
    (h1 : lo < 256) (h2 : hi < 256) (ht : t % 256 ≠ PROTO_EOC) :
    ∃ r, step bi s (PROTO_LOAD_ADDRESS :: lo :: hi :: t :: rest) = some r ∧
      r.state.address = lo ||| (hi <<< 8) ∧ r.output = [] ∧ r.writes = [] := by
  refine ⟨cmdBad { s with address := get_uint16 lo hi } rest, ?_, ?_, rfl, rfl⟩
  · simp [step, PROTO_LOAD_ADDRESS, PROTO_GET_SYNC, PROTO_GET_DEVICE, PROTO_CHIP_ERASE,
      PROTO_PARAM_ERASE, PROTO_READ_FLASH, ht]
  · simp [cmdBad, get_uint16, Nat.mod_eq_of_lt h1, Nat.mod_eq_of_lt h2]

theorem load_address_bad_terminator_still_sets_cursor_witness :
    (0x34 < 256 ∧ 0x12 < 256 ∧ 0 % 256 ≠ PROTO_EOC) ∧
    (∃ r, step bi0 s0 (PROTO_LOAD_ADDRESS :: 0x34 :: 0x12 :: 0 :: []) = some r ∧
      r.state.address = 0x34 ||| (0x12 <<< 8) ∧ r.output = [] ∧ r.writes = []) :=
  ⟨⟨by decide, by decide, by decide⟩,
    load_address_bad_terminator_still_sets_cursor bi0 s0 0x34 0x12 0 []
      (by decide) (by decide) (by decide)⟩

/-- Claim C10: a PROG_MULTI count byte exactly equal to the TransferBuffer
capacity is accepted (the oversize check is strictly greater-than), and
the staging loop never writes a buffer cell at or beyond the capacity:
every PROG_MULTI frame leaves the buffer unchanged from index
PROTO_PROG_MULTI_MAX upward, and an oversize frame stages nothing at all. -/
theorem prog_multi_capacity_boundary_buffer_safety (bi : BoardInfo) (s : LoopState)
    (cnt cnt2 : Nat) (data data2 rest rest2 rest3 : List Nat)
    (haddr : s.address < 65536) (hlen32 : data.length = PROTO_PROG_MULTI_MAX)
    (hc : cnt % 256 ≤ PROTO_PROG_MULTI_MAX) (hlen2 : data2.length = cnt % 256)
    (hbig : PROTO_PROG_MULTI_MAX < cnt2 % 256) :
    (∃ r, step bi s (PROTO_PROG_MULTI :: PROTO_PROG_MULTI_MAX :: (data ++ PROTO_EOC :: rest)) =
        some r ∧ r.writes.length = PROTO_PROG_MULTI_MAX ∧ r.output = [PROTO_INSYNC, PROTO_OK]) ∧
    (∀ t, ∃ r, step bi s (PROTO_PROG_MULTI :: cnt :: (data2 ++ t :: rest2)) = some r ∧
      ∀ j, PROTO_PROG_MULTI_MAX ≤ j → r.state.buf j = s.buf j) ∧
    (∃ r, step bi s (PROTO_PROG_MULTI :: cnt2 :: rest3) = some r ∧
      ∀ j, r.state.buf j = s.buf j) := by
  obtain ⟨buf2, heq, hlo2, hhi2, hmid⟩ := stageBytes_append data s.buf 0 (PROTO_EOC :: rest)
  rw [hlen32] at heq
  simp only [PROTO_PROG_MULTI_MAX] at heq
  obtain ⟨hw, ha2⟩ := progBytes_spec 32 s.flash s.address buf2 0 haddr
  refine ⟨⟨⟨⟨(progBytes s.flash s.address buf2 0 32).2.1,
      (progBytes s.flash s.address buf2 0 32).1, buf2⟩, sync_response,
      (progBytes s.flash s.address buf2 0 32).2.2, false, false, false, rest⟩, ?_, ?_, rfl⟩,
    ?_, ⟨cmdBad s rest3, ?_, fun j => rfl⟩⟩
  · simp only [step, PROTO_PROG_MULTI, PROTO_GET_SYNC, PROTO_GET_DEVICE, PROTO_CHIP_ERASE,
      PROTO_PARAM_ERASE, PROTO_READ_FLASH, PROTO_LOAD_ADDRESS, PROTO_PROG_FLASH,
      PROTO_PROG_MULTI_MAX]
    norm_num
    rw [heq]
    simp [PROTO_EOC]
  · rw [hw]
    simp [PROTO_PROG_MULTI_MAX]
  · intro t
    obtain ⟨buf3, heq3, hlo3, hhi3, hmid3⟩ := stageBytes_append data2 s.buf 0 (t :: rest2)
    rw [hlen2] at heq3
    have hbuf : ∀ j, PROTO_PROG_MULTI_MAX ≤ j → buf3 j = s.buf j := by
      intro j hj
      refine hhi3 j ?_
      simp only [PROTO_PROG_MULTI_MAX] at hj hc
      omega
    by_cases ht : t % 256 = PROTO_EOC
    · refine ⟨⟨⟨(progBytes s.flash s.address buf3 0 (cnt % 256)).2.1,
        (progBytes s.flash s.address buf3 0 (cnt % 256)).1, buf3⟩, sync_response,
        (progBytes s.flash s.address buf3 0 (cnt % 256)).2.2, false, false, false, rest2⟩,
        ?_, hbuf⟩
      simp only [step, PROTO_PROG_MULTI, PROTO_GET_SYNC, PROTO_GET_DEVICE, PROTO_CHIP_ERASE,
        PROTO_PARAM_ERASE, PROTO_READ_FLASH, PROTO_LOAD_ADDRESS, PROTO_PROG_FLASH]
      norm_num
      rw [if_neg (by simp only [PROTO_PROG_MULTI_MAX] at hc ⊢; omega), heq3]
      simp [ht]
    · refine ⟨cmdBad { s with buf := buf3 } rest2, ?_, hbuf⟩
      simp only [step, PROTO_PROG_MULTI, PROTO_GET_SYNC, PROTO_GET_DEVICE, PROTO_CHIP_ERASE,
        PROTO_PARAM_ERASE, PROTO_READ_FLASH, PROTO_LOAD_ADDRESS, PROTO_PROG_FLASH]
      norm_num
      rw [if_neg (by simp only [PROTO_PROG_MULTI_MAX] at hc ⊢; omega), heq3]
      simp [ht]
  · simp only [step, PROTO_PROG_MULTI, PROTO_GET_SYNC, PROTO_GET_DEVICE, PROTO_CHIP_ERASE,
      PROTO_PARAM_ERASE, PROTO_READ_FLASH, PROTO_LOAD_ADDRESS, PROTO_PROG_FLASH]
    norm_num
    intro h
    simp only [PROTO_PROG_MULTI_MAX] at h hbig
    omega

theorem prog_multi_capacity_boundary_buffer_safety_witness :
    (s0.address < 65536 ∧ (List.replicate 32 5).length = PROTO_PROG_MULTI_MAX ∧
      3 % 256 ≤ PROTO_PROG_MULTI_MAX ∧ ([1, 2, 3] : List Nat).length = 3 % 256 ∧
      PROTO_PROG_MULTI_MAX < 40 % 256) ∧
    (∃ r, step bi0 s0
        (PROTO_PROG_MULTI :: PROTO_PROG_MULTI_MAX :: (List.replicate 32 5 ++ PROTO_EOC :: [])) =
        some r ∧ r.writes.length = PROTO_PROG_MULTI_MAX ∧ r.output = [PROTO_INSYNC, PROTO_OK]) :=
  ⟨⟨by decide, by decide, by decide, by decide, by decide⟩,
    (prog_multi_capacity_boundary_buffer_safety bi0 s0 3 40 (List.replicate 32 5) [1, 2, 3]
      [] [] [] (by decide) (by decide) (by decide) (by decide) (by decide)).1⟩
